import Mathlib

/-!
Shallow embedding of `pymare/results.py`: the results containers
(`MetaRegressionResults`, `CombinationTestResults`, `PermutationTestResults`)
and the `permutation_test` engine, together with theorems checking the
natural-language specification against this code.

Numeric arrays are modelled over `ℚ` (the code computes with floats; the
claims under study are about structure, counting and exact comparisons, not
about rounding).  External numeric routines from numpy/scipy that the code
calls (`np.sqrt`, `ss.norm.cdf`, `ss.norm.ppf`, the `q_profile` kernel, the
random draws of `np.random.shuffle` / `np.random.choice`) are passed in as
explicit function parameters, and the estimator's vectorized `_fit` is an
abstract function parameter, since those live outside `results.py`.
-/

/-- Columns-per-dataset view of the arrays `permutation_test` reads from
`results.dataset`: `y` and `v` hold one column per parallel dataset (each of
length `n_obs`).  `v` stands for whichever of `dataset.v` / `dataset.n` the
estimator consumes (the code picks one via `getfullargspec`).  `n_predictors`
is `X.shape[1]`. -/
structure Dataset where
  y : List (List ℚ)
  v : List (List ℚ)
  n_predictors : ℕ

/-- Output of one vectorized call to `results.estimator._fit`:
`fe_params` holds one row per coefficient (each row has one entry per
permuted column), `tau2` one entry per permuted column. -/
structure FitResult where
  fe_params : List (List ℚ)
  tau2 : List ℚ

/-- The container returned by `permutation_test` (results.py line 247).
`fe_p` stores the matrix of fixed-effect permutation p-values as one list per
parallel dataset (the code stores it as a `p x d` array). -/
structure PermutationTestResults where
  fe_p : List (List ℚ)
  tau2_p : Option (List ℚ)
  n_perm : ℕ
  exact : Bool

/-- `xs[inds]` fancy indexing: the list whose j-th entry is `xs[inds[j]]`.
Models `y[inds]` for an index permutation `inds` (results.py line 214). -/
def applyPerm (inds : List ℕ) (xs : List ℚ) : List ℚ :=
  inds.map (fun k => xs.getD k 0)

/-- `itertools.product([-1, 1], repeat=n)` (results.py line 191): all sign
patterns of length `n`, first slot varying slowest. -/
def signPatterns : ℕ → List (List ℚ)
  | 0 => [[]]
  | n + 1 => ((signPatterns n).map (List.cons (-1))) ++ ((signPatterns n).map (List.cons 1))

/-- `(fe_obs < np.abs(values)).mean()` (results.py lines 235 and 237): the
fraction of `values` whose absolute value strictly exceeds `obs`.  Note the
code compares the *signed* observed statistic to the absolute permuted
statistics. -/
def pvalue_fraction (obs : ℚ) (values : List ℚ) : ℚ :=
  ((values.countP (fun b => decide (obs < |b|))) : ℚ) / (values.length : ℚ)

/-- The fraction the specification describes for the fixed-effect permutation
p-value: permuted fits whose absolute coefficient magnitude exceeds the
*absolute* observed magnitude.  Written from the spec's words, to be compared
with `pvalue_fraction` (which is the code's formula). -/
def pvalue_fraction_spec (obs : ℚ) (values : List ℚ) : ℚ :=
  ((values.countP (fun b => decide (|obs| < |b|))) : ℚ) / (values.length : ℚ)

/-- The permuted-column builder of `permutation_test` (results.py lines
200-225), for one parallel dataset.  Returns the pair (columns of `y_perm`,
columns of `v_perm`).
* moderators and exact: enumerate `itertools.permutations(range(n_obs))` and
  apply each index permutation to `y` and to `v` (lines 211-215); the caller
  has already set `n_perm` to `n_obs!`, so all `n_perm` columns are written.
* moderators and Monte Carlo: for each column `j` the code makes two separate
  `np.random.shuffle` calls, one on `y_perm[:, j]` and one on `v_perm[:, j]`
  (lines 217-219); the draws of that RNG are read off the stream `randPerm`,
  the `y` shuffle of column `j` consuming draw `2*j` and the `v` shuffle
  consuming draw `2*j+1`.
* intercept-only and exact: multiply the copies of `y` by every sign pattern
  (line 222; the caller has set `n_perm = 2^n_obs`); `v_perm` stays the
  `n_perm` repeated copies of `v`.
* intercept-only and Monte Carlo: multiply column `j` by the random sign
  vector `randSign j` (lines 224-225); `v_perm` stays the repeated copies. -/
def build_perm_columns (has_mods exactTest : Bool) (n_perm : ℕ) (y v : List ℚ)
    (randPerm : ℕ → List ℕ) (randSign : ℕ → List ℚ) :
    List (List ℚ) × List (List ℚ) :=
  let n_obs := y.length
  if has_mods then
    if exactTest then
      (((List.range n_obs).permutations).map (fun inds => applyPerm inds y),
       ((List.range n_obs).permutations).map (fun inds => applyPerm inds v))
    else
      ((List.range n_perm).map (fun j => applyPerm (randPerm (2 * j)) y),
       (List.range n_perm).map (fun j => applyPerm (randPerm (2 * j + 1)) v))
  else
    if exactTest then
      ((signPatterns n_obs).map (fun s => List.zipWith (· * ·) s y),
       List.replicate n_perm v)
    else
      ((List.range n_perm).map (fun j => List.zipWith (· * ·) (randSign j) y),
       List.replicate n_perm v)

/-- Faithful model of `permutation_test` (results.py lines 153-244).
`fit` is the estimator's vectorized `_fit` (applied to the batch of permuted
`y` columns and permuted `v` columns); `obs_beta` is `fe_stats['est']` (one
list of observed coefficients per parallel dataset, i.e. the columns of
`results.fe_params`); `obs_tau2` is `re_stats['tau^2']` when the estimator is
a random-effects one (`rfx`), `none` otherwise; `randPerm i` and `randSign i`
are the RNG draw streams consumed while processing dataset `i`.  The returned
`n_perm` field is the effective permutation count (the code reassigns the
local `n_perm` to `n_exact` in exact mode, line 195). -/
def permutation_test (fit : List (List ℚ) → List (List ℚ) → FitResult)
    (ds : Dataset) (obs_beta : List (List ℚ)) (obs_tau2 : Option (List ℚ))
    (randPerm : ℕ → ℕ → List ℕ) (randSign : ℕ → ℕ → List ℚ)
    (n_perm : ℕ) : PermutationTestResults :=
  let n_obs := (ds.y.headD []).length
  let n_datasets := ds.y.length
  let has_mods : Bool := decide (1 < ds.n_predictors)
  let n_exact := if has_mods then Nat.factorial n_obs else 2 ^ n_obs
  let exactTest : Bool := decide (n_exact < n_perm)
  let n_perm2 := if exactTest then n_exact else n_perm
  let fe_p := (List.range n_datasets).map (fun i =>
    let c := build_perm_columns has_mods exactTest n_perm2
      (ds.y.getD i []) (ds.v.getD i []) (randPerm i) (randSign i)
    let params := fit c.1 c.2
    (List.zipWith (fun obs row => pvalue_fraction obs row)
        (obs_beta.getD i []) params.fe_params).map
      (fun q => max (1 / (n_perm2 : ℚ)) q))
  let tau2_p := obs_tau2.map (fun t => (List.range n_datasets).map (fun i =>
    let c := build_perm_columns has_mods exactTest n_perm2
      (ds.y.getD i []) (ds.v.getD i []) (randPerm i) (randSign i)
    let params := fit c.1 c.2
    max (1 / (n_perm2 : ℚ)) (pvalue_fraction (t.getD i 0) params.tau2)))
  { fe_p := fe_p, tau2_p := tau2_p, n_perm := n_perm2, exact := exactTest }

/-- The `MetaRegressionResults` container (results.py line 19).  `fe_params`
is the `p x d` coefficient array (indexed predictor, dataset), `fe_cov` the
`p x p x d` covariance array (`np.atleast_3d` puts the parallel-dataset axis
third), `X_names` the predictor names of `self.dataset`.  The `estimator` and
`dataset` references are not needed by the fixed-effect claims and are
omitted; `tau2` is kept for completeness. -/
structure MetaRegressionResults where
  p : ℕ
  d : ℕ
  fe_params : ℕ → ℕ → ℚ
  fe_cov : ℕ → ℕ → ℕ → ℚ
  tau2 : Option (List ℚ)
  X_names : List String

/-- The dict returned by `get_fe_stats` (results.py lines 56-63), each entry
a `p x d` array given as an index function. -/
structure FEStats where
  est : ℕ → ℕ → ℚ
  se : ℕ → ℕ → ℚ
  ci_l : ℕ → ℕ → ℚ
  ci_u : ℕ → ℕ → ℚ
  z : ℕ → ℕ → ℚ
  p : ℕ → ℕ → ℚ

/-- The `fe_se` property (results.py lines 43-47):
`np.sqrt(np.diagonal(np.atleast_3d(fe_cov))).T`, i.e. entry `(j, k)` is the
square root of `fe_cov[j, j, k]`.  `sqrt` models `np.sqrt`. -/
def MetaRegressionResults.fe_se (sqrt : ℚ → ℚ) (r : MetaRegressionResults) :
    ℕ → ℕ → ℚ :=
  fun j k => sqrt (r.fe_cov j j k)

/-- `get_fe_stats(alpha)` (results.py lines 49-65).  `cdf` and `ppf` model
`ss.norm.cdf` and `ss.norm.ppf`.  The p-value is written exactly as in the
source: `1 - np.abs(0.5 - ss.norm.cdf(z)) * 2`. -/
def MetaRegressionResults.get_fe_stats (sqrt cdf ppf : ℚ → ℚ)
    (r : MetaRegressionResults) (alpha : ℚ) : FEStats :=
  let beta := r.fe_params
  let se := r.fe_se sqrt
  let z_se := ppf (1 - alpha / 2)
  { est := beta
    se := se
    ci_l := fun j k => beta j k - z_se * se j k
    ci_u := fun j k => beta j k + z_se * se j k
    z := fun j k => beta j k / se j k
    p := fun j k => 1 - |1 / 2 - cdf (beta j k / se j k)| * 2 }

/-- One column of a pandas DataFrame as built by `to_df`: either a column of
strings (the `name` column) or a column of numbers. -/
inductive ColData where
  | strs : List String → ColData
  | nums : List ℚ → ColData
deriving DecidableEq

/-- Number of rows a column holds. -/
def colLength : ColData → ℕ
  | .strs l => l.length
  | .nums l => l.length

/-- `MetaRegressionResults.to_df(alpha)` (results.py lines 99-113): raises
when `fe_params` has more than one parallel-dataset column, otherwise builds
the table with columns `name, est, se, z, p, ci_l, ci_u` renamed to
`name, estimate, se, z-score, p-value, ci_{alpha/2}, ci_{1-alpha/2}`.
`fmtg` models the Python float format `{:.6g}` used in the CI column labels.
With one parallel dataset, `ravel()` of a `p x 1` stat array is its column 0,
so each numeric column lists entries `j = 0 .. p-1` at dataset index 0. -/
def MetaRegressionResults.to_df (sqrt cdf ppf : ℚ → ℚ) (fmtg : ℚ → String)
    (r : MetaRegressionResults) (alpha : ℚ) :
    Except String (List (String × ColData)) :=
  if 1 < r.d then
    .error "More than one set of results found! A summary table cannot be displayed for multidimensional results at the moment."
  else
    let s := r.get_fe_stats sqrt cdf ppf alpha
    let col := fun (f : ℕ → ℕ → ℚ) =>
      ColData.nums ((List.range r.p).map (fun j => f j 0))
    .ok [("name", .strs r.X_names), ("estimate", col s.est), ("se", col s.se),
         ("z-score", col s.z), ("p-value", col s.p),
         ("ci_" ++ fmtg (alpha / 2), col s.ci_l),
         ("ci_" ++ fmtg (1 - alpha / 2), col s.ci_u)]

/-- `PermutationTestResults.to_df(alpha)` (results.py lines 256-270): take the
base table of `self.results` (the underlying `MetaRegressionResults`, passed
here as `r`) and insert a column named `p-value (perm.)` holding `self.fe_p`
right after the `p-value` column.  With one parallel dataset the stored
`fe_p` flattens to its single column. -/
def PermutationTestResults.to_df (sqrt cdf ppf : ℚ → ℚ) (fmtg : ℚ → String)
    (ptr : PermutationTestResults) (r : MetaRegressionResults) (alpha : ℚ) :
    Except String (List (String × ColData)) :=
  match r.to_df sqrt cdf ppf fmtg alpha with
  | .error e => .error e
  | .ok df =>
    let p_ind := df.findIdx (fun c => decide (c.1 = "p-value"))
    .ok (df.insertIdx (p_ind + 1) ("p-value (perm.)", .nums ptr.fe_p.flatten))

/-- The dict returned by `get_re_stats` (results.py lines 93-97). -/
structure REStats where
  tau2 : List ℚ
  ci_l : List ℚ
  ci_u : List ℚ

/-- `get_re_stats(method, alpha)` (results.py lines 67-97).  `q_profile`
models the imported Q-Profile kernel `pymare.stats.q_profile`, returning the
pair `(ci_l, ci_u)` for one dataset; it is called once per parallel dataset
`i` on that dataset's columns `y[:, i]`, `v[:, i]` (the design matrix `X`,
shared by all datasets, is folded into the kernel parameter).  `n_iters` is
`np.atleast_2d(tau2).shape[1]`, the number of parallel tau^2 values.  For any
method other than `QP` the code raises a `ValueError` naming the method. -/
def get_re_stats (q_profile : List ℚ → List ℚ → ℚ → ℚ × ℚ) (tau2 : List ℚ)
    (ycols vcols : List (List ℚ)) (method : String) (alpha : ℚ) :
    Except String REStats :=
  if method = "QP" then
    let cis := (List.range tau2.length).map
      (fun i => q_profile (ycols.getD i []) (vcols.getD i []) alpha)
    .ok { tau2 := tau2, ci_l := cis.map Prod.fst, ci_u := cis.map Prod.snd }
  else
    .error ("Invalid CI method " ++ method ++ "; currently only QP is available.")

/-- `CombinationTestResults` (results.py line 116): stored z-score and
p-value arrays, either possibly absent. -/
structure CombinationTestResults where
  _z : Option (List ℚ)
  _p : Option (List ℚ)

/-- The `z` property (results.py lines 135-140): the stored `_z` if present,
else `ss.norm.ppf` of the stored p-values. -/
def CombinationTestResults.z (ppf : ℚ → ℚ) (r : CombinationTestResults) :
    Option (List ℚ) :=
  match r._z with
  | some zs => some zs
  | none => r._p.map (List.map ppf)

/-- The `p` property (results.py lines 142-147), exactly as written in the
source: if `self._p is None` it stores `ss.norm.cdf(self.z)` into `self._p`,
and then returns `self._z` (sic — line 147 reads `return self._z`).  Returns
the updated object together with the returned value. -/
def CombinationTestResults.p (cdf ppf : ℚ → ℚ) (r : CombinationTestResults) :
    CombinationTestResults × Option (List ℚ) :=
  let r2 := if r._p.isNone
    then { r with _p := (r.z ppf).map (List.map cdf) }
    else r
  (r2, r2._z)

/-- State of a `functools.lru_cache(maxsize=...)` wrapper: `entries` lists
(key, value, tag) triples in most-recently-used-first order, where `tag`
records which underlying computation produced the value — two results carry
the same tag exactly when they are the same cached object, so tags model
Python object identity.  `n_calls` counts underlying computations. -/
structure LruState (α β : Type) where
  entries : List (α × β × ℕ)
  n_calls : ℕ

/-- One call through an `lru_cache(maxsize)` wrapper of `f`: on a hit the
cached (value, tag) is returned and the entry moves to the front; on a miss
`f` runs, the result is tagged with a fresh tag, inserted in front, and the
least recently used entry beyond `maxsize` is evicted. -/
def lru_get {α β : Type} [DecidableEq α] (maxsize : ℕ) (f : α → β)
    (st : LruState α β) (a : α) : (β × ℕ) × LruState α β :=
  match st.entries.find? (fun e => decide (e.1 = a)) with
  | some e =>
    ((e.2.1, e.2.2),
     { entries := e :: st.entries.eraseP (fun x => decide (x.1 = a)),
       n_calls := st.n_calls })
  | none =>
    ((f a, st.n_calls),
     { entries := ((a, f a, st.n_calls) :: st.entries).take maxsize,
       n_calls := st.n_calls + 1 })

/-- `get_fe_stats` as the code exposes it: wrapped in
`@lru_cache(maxsize=16)` keyed by `alpha` (results.py line 49). -/
def get_fe_stats_cached (sqrt cdf ppf : ℚ → ℚ) (r : MetaRegressionResults)
    (st : LruState ℚ FEStats) (alpha : ℚ) : (FEStats × ℕ) × LruState ℚ FEStats :=
  lru_get 16 (r.get_fe_stats sqrt cdf ppf) st alpha

/-! Small concrete instances used to evaluate the definitions. -/

/-- A closed-form intercept-only fixed-effect fit on a single study: the
fitted coefficient of each permuted column is that column's (single) y value,
and tau2 is 0 for every column. -/
def fitSingle : List (List ℚ) → List (List ℚ) → FitResult :=
  fun yp _ => { fe_params := [yp.map (fun c => c.headD 0)], tau2 := yp.map (fun _ => 0) }

/-- One parallel dataset with a single study whose observed effect is `-3`,
intercept-only design.  The observed coefficient under `fitSingle` is `-3`. -/
def dsNeg : Dataset := { y := [[-3]], v := [[1]], n_predictors := 1 }

/-- One parallel dataset with four studies, intercept-only design. -/
def dsFour : Dataset := { y := [[1, 2, 3, 4]], v := [[1, 1, 1, 1]], n_predictors := 1 }

/-- One parallel dataset with two studies, intercept-only design. -/
def dsTwo : Dataset := { y := [[5, 7]], v := [[2, 3]], n_predictors := 1 }

/-- The `np.random.shuffle` draw stream refuting pairing preservation: the
first shuffle call (on `y_perm[:, 0]`) draws the identity and the second (on
`v_perm[:, 0]`) draws the swap. -/
def rpSwap : ℕ → List ℕ := fun k => if k = 1 then [1, 0] else [0, 1]

/-- An empty draw stream (never consulted in exact mode). -/
def rpNone : ℕ → ℕ → List ℕ := fun _ _ => []

/-- An empty sign-draw stream (never consulted in exact mode). -/
def rsNone : ℕ → ℕ → List ℚ := fun _ _ => []

/-- A tiny results container: one predictor, one parallel dataset,
coefficient 2 with variance 4. -/
def rOne : MetaRegressionResults :=
  { p := 1, d := 1, fe_params := fun _ _ => 2, fe_cov := fun _ _ _ => 4,
    tau2 := none, X_names := ["intercept"] }

/-- A results container with two predictors and one parallel dataset. -/
def rTwoPred : MetaRegressionResults :=
  { p := 2, d := 1, fe_params := fun j _ => (j : ℚ) + 1, fe_cov := fun _ _ _ => 1,
    tau2 := none, X_names := ["intercept", "bork"] }

/-- A results container encoding two parallel datasets. -/
def rTwoData : MetaRegressionResults :=
  { p := 1, d := 2, fe_params := fun _ _ => 1, fe_cov := fun _ _ _ => 1,
    tau2 := none, X_names := ["intercept"] }

/-- The constant-one-half function: a monotone model of `ss.norm.cdf`
satisfying the standard-normal symmetry `cdf (-x) = 1 - cdf x`. -/
def cdfHalf : ℚ → ℚ := fun _ => 1 / 2

/-- A constant column-label formatter standing in for `{:.6g}`. -/
def fmtgQ : ℚ → String := fun _ => "q"

/-- A permutation-test result record holding two fixed-effect permutation
p-values for one parallel dataset. -/
def ptrTwo : PermutationTestResults :=
  { fe_p := [[1 / 4, 1 / 2]], tau2_p := none, n_perm := 16, exact := true }

/-! Helper lemmas. -/

/-- `signPatterns n` enumerates `2 ^ n` patterns. -/
theorem signPatterns_length (n : ℕ) : (signPatterns n).length = 2 ^ n := by
  induction n with
  | zero => rfl
  | succ n ih =>
    simp only [signPatterns, List.length_append, List.length_map, ih, pow_succ]
    ring

/-- `signPatterns n` lists every sign pattern exactly once. -/
theorem signPatterns_nodup (n : ℕ) : (signPatterns n).Nodup := by
  induction n with
  | zero => simp [signPatterns]
  | succ n ih =>
    simp only [signPatterns]
    refine List.Nodup.append (ih.map List.cons_injective) (ih.map List.cons_injective) ?_
    simp only [List.disjoint_left, List.mem_map]
    rintro l ⟨t, _, rfl⟩ ⟨t2, _, h⟩
    have : (1 : ℚ) = -1 := (List.cons.inj h).1
    norm_num at this

/-- The fraction of permuted statistics beating the observed one never
exceeds 1. -/
theorem pvalue_fraction_le_one (obs : ℚ) (xs : List ℚ) :
    pvalue_fraction obs xs ≤ 1 := by
  unfold pvalue_fraction
  rcases Nat.eq_zero_or_pos xs.length with h | h
  · simp [h]
  · rw [div_le_one (by exact_mod_cast h)]
    exact_mod_cast xs.countP_le_length _

/-- The floored permutation p-value `max (1/n) frac` lies in `[1/n, 1]`
whenever `1 ≤ n`. -/
theorem floored_pvalue_bounds (n2 : ℕ) (hn2 : 1 ≤ n2) (obs : ℚ) (xs : List ℚ) :
    1 / (n2 : ℚ) ≤ max (1 / (n2 : ℚ)) (pvalue_fraction obs xs) ∧
    max (1 / (n2 : ℚ)) (pvalue_fraction obs xs) ≤ 1 := by
  refine ⟨le_max_left _ _, max_le ?_ (pvalue_fraction_le_one obs xs)⟩
  rw [div_le_one (by exact_mod_cast hn2)]
  exact_mod_cast hn2

/-- The source's expression `1 - np.abs(0.5 - cdf(z)) * 2` equals the
two-sided tail `2 * (1 - cdf |z|)` for any monotone cdf with the
standard-normal symmetry. -/
theorem two_sided_p_eq (cdf : ℚ → ℚ) (hmono : Monotone cdf)
    (hsymm : ∀ x, cdf (-x) = 1 - cdf x) (z : ℚ) :
    1 - |1 / 2 - cdf z| * 2 = 2 * (1 - cdf |z|) := by
  have h0 : cdf 0 = 1 / 2 := by
    have h := hsymm 0
    rw [neg_zero] at h
    linarith
  rcases le_or_lt 0 z with hz | hz
  · have h1 : (1 : ℚ) / 2 ≤ cdf z := by
      have := hmono hz
      rw [h0] at this
      exact this
    rw [abs_of_nonpos (by linarith), abs_of_nonneg hz]
    ring
  · have h1 : cdf z ≤ 1 / 2 := by
      have := hmono (le_of_lt hz)
      rw [h0] at this
      exact this
    rw [abs_of_nonneg (by linarith), abs_of_neg hz, hsymm]
    ring

/-- A repeated `lru_get` with the same key is a cache hit: it returns the
very entry stored by the first call (same value, same tag) and performs no
new computation. -/
theorem lru_get_hit {α β : Type} [DecidableEq α] (maxsize : ℕ)
    (hms : 1 ≤ maxsize) (f : α → β) (st : LruState α β) (a : α) :
    (lru_get maxsize f (lru_get maxsize f st a).2 a).1 =
      (lru_get maxsize f st a).1 ∧
    (lru_get maxsize f (lru_get maxsize f st a).2 a).2.n_calls =
      (lru_get maxsize f st a).2.n_calls := by
  obtain ⟨m, rfl⟩ : ∃ m, maxsize = m + 1 :=
    ⟨maxsize - 1, (Nat.succ_pred_eq_of_pos hms).symm⟩
  cases h : st.entries.find? (fun e => decide (e.1 = a)) with
  | some e =>
    have he : e.1 = a := by simpa using List.find?_some h
    simp only [lru_get, h]
    rw [List.find?_cons_of_pos _ (by simp [he])]
    exact ⟨rfl, rfl⟩
  | none =>
    simp only [lru_get, h, List.take_succ_cons]
    rw [List.find?_cons_of_pos _ (by simp)]
    exact ⟨rfl, rfl⟩

/-! Claim theorems. -/

/-- C10: the `p` accessor of `CombinationTestResults` never returns the
stored or derived p-values: constructed with `z` provided and `p` omitted,
accessing `p` stores the normal-CDF transform into `_p` but returns the
z-score array itself; constructed with `p` provided and `z` omitted, it
returns `none`. -/
theorem combination_p_returns_z (cdf ppf : ℚ → ℚ) (zs ps : List ℚ) :
    (CombinationTestResults.p cdf ppf { _z := some zs, _p := none } =
      ({ _z := some zs, _p := some (zs.map cdf) }, some zs)) ∧
    (CombinationTestResults.p cdf ppf { _z := none, _p := some ps } =
      ({ _z := none, _p := some ps }, none)) := by
  constructor <;> simp [CombinationTestResults.p, CombinationTestResults.z]

/-- C7: `get_re_stats` raises an error naming the unsupported method for
every method other than `QP`, and for `QP` it invokes the Q-Profile kernel
once per parallel dataset, on that dataset's columns only; it never defaults
to another method. -/
theorem get_re_stats_method_selection (q_profile : List ℚ → List ℚ → ℚ → ℚ × ℚ)
    (tau2 : List ℚ) (ycols vcols : List (List ℚ)) (alpha : ℚ) :
    (∀ method : String, method ≠ "QP" →
      get_re_stats q_profile tau2 ycols vcols method alpha =
        .error ("Invalid CI method " ++ method ++ "; currently only QP is available.")) ∧
    (∃ cis : List (ℚ × ℚ),
      get_re_stats q_profile tau2 ycols vcols "QP" alpha =
        .ok { tau2 := tau2, ci_l := cis.map Prod.fst, ci_u := cis.map Prod.snd } ∧
      cis.length = tau2.length ∧
      ∀ i, i < tau2.length →
        cis.getD i (0, 0) = q_profile (ycols.getD i []) (vcols.getD i []) alpha) := by
  refine ⟨fun method h => by simp [get_re_stats, h],
    ⟨(List.range tau2.length).map
      (fun i => q_profile (ycols.getD i []) (vcols.getD i []) alpha), ?_, ?_, ?_⟩⟩
  · simp [get_re_stats]
  · simp
  · intro i hi
    simp [List.getD_eq_getElem?_getD, hi]

/-- C7 witness: the unknown method `banana` is rejected with an error naming
it. -/
theorem get_re_stats_method_selection_witness :
    ("banana" : String) ≠ "QP" ∧
    get_re_stats (fun _ _ _ => (0, 0)) [0] [[1]] [[1]] "banana" 0 =
      .error "Invalid CI method banana; currently only QP is available." :=
  ⟨by decide,
   (get_re_stats_method_selection (fun _ _ _ => (0, 0)) [0] [[1]] [[1]] 0).1
     "banana" (by decide)⟩

/-- C4: `get_fe_stats(alpha)` returns standard errors equal to the square
root of the diagonal of `fe_cov`, z-scores equal to beta over the standard
error, confidence bounds beta minus and plus `z_(1-alpha/2) * se`, and a two-sided
p-value `2 * (1 - cdf |z|)` from the normal CDF, for every coefficient `j`
and parallel dataset `k`. -/
theorem get_fe_stats_formulas (sqrt cdf ppf : ℚ → ℚ)
    (r : MetaRegressionResults) (alpha : ℚ)
    (hmono : Monotone cdf) (hsymm : ∀ x, cdf (-x) = 1 - cdf x) (j k : ℕ) :
    (r.get_fe_stats sqrt cdf ppf alpha).se j k = sqrt (r.fe_cov j j k) ∧
    (r.get_fe_stats sqrt cdf ppf alpha).z j k =
      r.fe_params j k / (r.get_fe_stats sqrt cdf ppf alpha).se j k ∧
    (r.get_fe_stats sqrt cdf ppf alpha).ci_l j k =
      r.fe_params j k - ppf (1 - alpha / 2) * (r.get_fe_stats sqrt cdf ppf alpha).se j k ∧
    (r.get_fe_stats sqrt cdf ppf alpha).ci_u j k =
      r.fe_params j k + ppf (1 - alpha / 2) * (r.get_fe_stats sqrt cdf ppf alpha).se j k ∧
    (r.get_fe_stats sqrt cdf ppf alpha).p j k =
      2 * (1 - cdf |(r.get_fe_stats sqrt cdf ppf alpha).z j k|) := by
  refine ⟨rfl, rfl, rfl, rfl, ?_⟩
  simpa [MetaRegressionResults.get_fe_stats, MetaRegressionResults.fe_se] using
    two_sided_p_eq cdf hmono hsymm
      (r.fe_params j k / sqrt (r.fe_cov j j k))

/-- C4 witness: the formulas evaluated on `rOne` with the constant-half cdf
(which is monotone and symmetric). -/
theorem get_fe_stats_formulas_witness :
    Monotone cdfHalf ∧ (∀ x, cdfHalf (-x) = 1 - cdfHalf x) ∧
    ((rOne.get_fe_stats id cdfHalf id (1 / 20)).se 0 0 = id (rOne.fe_cov 0 0 0) ∧
     (rOne.get_fe_stats id cdfHalf id (1 / 20)).z 0 0 =
       rOne.fe_params 0 0 / (rOne.get_fe_stats id cdfHalf id (1 / 20)).se 0 0 ∧
     (rOne.get_fe_stats id cdfHalf id (1 / 20)).ci_l 0 0 =
       rOne.fe_params 0 0 - id (1 - (1 : ℚ) / 20 / 2) * (rOne.get_fe_stats id cdfHalf id (1 / 20)).se 0 0 ∧
     (rOne.get_fe_stats id cdfHalf id (1 / 20)).ci_u 0 0 =
       rOne.fe_params 0 0 + id (1 - (1 : ℚ) / 20 / 2) * (rOne.get_fe_stats id cdfHalf id (1 / 20)).se 0 0 ∧
     (rOne.get_fe_stats id cdfHalf id (1 / 20)).p 0 0 =
       2 * (1 - cdfHalf |(rOne.get_fe_stats id cdfHalf id (1 / 20)).z 0 0|)) :=
  ⟨monotone_const, fun x => by norm_num [cdfHalf],
   get_fe_stats_formulas id cdfHalf id rOne (1 / 20) monotone_const
     (fun x => by norm_num [cdfHalf]) 0 0⟩

/-- C8 (amended): calling the `lru_cache`-wrapped `get_fe_stats` twice in
succession with the same alpha returns the identical cached object (same
value and same identity tag) and performs no new computation. -/
theorem get_fe_stats_cache_hit (sqrt cdf ppf : ℚ → ℚ)
    (r : MetaRegressionResults) (st : LruState ℚ FEStats) (alpha : ℚ) :
    (get_fe_stats_cached sqrt cdf ppf r
        (get_fe_stats_cached sqrt cdf ppf r st alpha).2 alpha).1 =
      (get_fe_stats_cached sqrt cdf ppf r st alpha).1 ∧
    (get_fe_stats_cached sqrt cdf ppf r
        (get_fe_stats_cached sqrt cdf ppf r st alpha).2 alpha).2.n_calls =
      (get_fe_stats_cached sqrt cdf ppf r st alpha).2.n_calls :=
  lru_get_hit 16 (by norm_num) (r.get_fe_stats sqrt cdf ppf) st alpha

/-- C8 counterexample: the cache is a bounded LRU with `maxsize=16`, so a
result cached for alpha 0 is evicted after 16 more recently used distinct
alphas; the next call with alpha 0 recomputes, returning an object with a
fresh identity tag (17, not the original 0) and incrementing the computation
count to 18. -/
theorem get_fe_stats_cache_eviction :
    ((get_fe_stats_cached id cdfHalf id rOne { entries := [], n_calls := 0 } 0).1.2 = 0 ∧
     (get_fe_stats_cached id cdfHalf id rOne { entries := [], n_calls := 0 } 0).2.n_calls = 1) ∧
    (((List.range 17).foldl
        (fun s k => (get_fe_stats_cached id cdfHalf id rOne s (k : ℚ)).2)
        { entries := [], n_calls := 0 }).n_calls = 17 ∧
     (get_fe_stats_cached id cdfHalf id rOne
        ((List.range 17).foldl
          (fun s k => (get_fe_stats_cached id cdfHalf id rOne s (k : ℚ)).2)
          { entries := [], n_calls := 0 }) 0).1.2 = 17 ∧
     (get_fe_stats_cached id cdfHalf id rOne
        ((List.range 17).foldl
          (fun s k => (get_fe_stats_cached id cdfHalf id rOne s (k : ℚ)).2)
          { entries := [], n_calls := 0 }) 0).2.n_calls = 18) := by
  decide

/-- C1 (refuted): the code's permutation p-value for a fixed-effect
coefficient compares the *signed* observed coefficient, not its absolute
magnitude, against the absolute permuted coefficients (`fe_obs` is not passed
through `np.abs` on line 232).  On a single-study intercept-only dataset with
observed coefficient `-3` (so the exact sign-flip universe gives permuted
coefficients `3` and `-3`, both of absolute magnitude `3`), the code returns
the p-value `1`, while the fraction described by the claim is `0` (floored to
`1/2`). -/
theorem permutation_test_signed_observed_bug :
    (permutation_test fitSingle dsNeg [[-3]] none rpNone rsNone 10).fe_p = [[1]] ∧
    (permutation_test fitSingle dsNeg [[-3]] none rpNone rsNone 10).n_perm = 2 ∧
    pvalue_fraction (-3) [3, -3] = 1 ∧
    pvalue_fraction_spec (-3) [3, -3] = 0 ∧
    max (1 / 2 : ℚ) (pvalue_fraction_spec (-3) [3, -3]) = 1 / 2 := by
  refine ⟨?_, by decide, by norm_num [pvalue_fraction], by norm_num [pvalue_fraction_spec], ?_⟩
  · simp [permutation_test, build_perm_columns, signPatterns, applyPerm, pvalue_fraction,
      fitSingle, dsNeg, rpNone, rsNone, List.range_succ]
    norm_num
  · norm_num [pvalue_fraction_spec]

/-- C2 (refuted): in Monte Carlo mode with moderators the code shuffles
`y_perm[:, j]` and `v_perm[:, j]` with two independent `np.random.shuffle`
calls, so the per-study (y, v) pairing is not preserved.  With two studies
`(y, v) = ((1, 10), (2, 20))` and a draw stream whose first shuffle is the
identity and whose second is the swap, column 0 of the permuted batch pairs
`1` with `20` and `2` with `10` — not a rearrangement of the original
(y, v) pairs. -/
theorem permutation_test_independent_shuffle_bug :
    build_perm_columns true false 2 [1, 2] [10, 20] rpSwap (fun _ => []) =
      ([[1, 2], [1, 2]], [[20, 10], [10, 20]]) ∧
    ¬ (List.zip ([1, 2] : List ℚ) [20, 10]).Perm (List.zip ([1, 2] : List ℚ) [10, 20]) := by
  decide

/-- C3: the permutation universe is `n_obs!` when the design has
non-intercept predictors and `2 ^ n_obs` otherwise; exact mode holds iff the
universe is strictly smaller than the requested `n_perm`, in which case the
effective count recorded in the result equals the universe size, otherwise it
equals the request; `signPatterns` enumerates every sign pattern exactly
once; and for 4 studies intercept-only with `n_perm = 1000` the test is exact
with exactly 16 permutations, the `y` batch being the 16 sign-flipped copies. -/
theorem permutation_test_exact_mode :
    (∀ (fit : List (List ℚ) → List (List ℚ) → FitResult) (ds : Dataset)
      (obs_beta : List (List ℚ)) (obs_tau2 : Option (List ℚ))
      (rp : ℕ → ℕ → List ℕ) (rs : ℕ → ℕ → List ℚ) (n_perm : ℕ),
      (permutation_test fit ds obs_beta obs_tau2 rp rs n_perm).exact =
        decide ((if 1 < ds.n_predictors then Nat.factorial ((ds.y.headD []).length)
          else 2 ^ ((ds.y.headD []).length)) < n_perm) ∧
      (permutation_test fit ds obs_beta obs_tau2 rp rs n_perm).n_perm =
        (if (if 1 < ds.n_predictors then Nat.factorial ((ds.y.headD []).length)
              else 2 ^ ((ds.y.headD []).length)) < n_perm
         then (if 1 < ds.n_predictors then Nat.factorial ((ds.y.headD []).length)
              else 2 ^ ((ds.y.headD []).length))
         else n_perm)) ∧
    (∀ n : ℕ, (signPatterns n).length = 2 ^ n ∧ (signPatterns n).Nodup) ∧
    ((permutation_test fitSingle dsFour [[1]] none rpNone rsNone 1000).exact = true ∧
     (permutation_test fitSingle dsFour [[1]] none rpNone rsNone 1000).n_perm = 16 ∧
     (build_perm_columns false true 16 [1, 2, 3, 4] [1, 1, 1, 1]
        (fun _ => []) (fun _ => [])).1 =
       (signPatterns 4).map (fun s => List.zipWith (· * ·) s [1, 2, 3, 4])) := by
  refine ⟨?_, fun n => ⟨signPatterns_length n, signPatterns_nodup n⟩, by decide, by decide, rfl⟩
  intro fit ds obs_beta obs_tau2 rp rs n_perm
  by_cases h : 1 < ds.n_predictors <;> simp [permutation_test, h]

/-- Membership in a `zipWith` image comes from a pair of inputs. -/
theorem exists_of_mem_zipWith {α β γ : Type} {f : α → β → γ} {l1 : List α}
    {l2 : List β} {x : γ} (h : x ∈ List.zipWith f l1 l2) : ∃ a b, x = f a b := by
  induction l1 generalizing l2 with
  | nil => simp at h
  | cons a t ih =>
    cases l2 with
    | nil => simp at h
    | cons b t2 =>
      rw [List.zipWith_cons_cons, List.mem_cons] at h
      rcases h with h | h
      · exact ⟨a, b, h⟩
      · exact ih h

/-- C5: every fixed-effect and tau2 permutation p-value in the result of
`permutation_test` is at least `1 / n_perm_effective` (the silent floor
applied by `np.maximum`) and at most 1, for any requested `n_perm >= 1`. -/
theorem permutation_test_pvalue_bounds (fit : List (List ℚ) → List (List ℚ) → FitResult)
    (ds : Dataset) (obs_beta : List (List ℚ)) (obs_tau2 : Option (List ℚ))
    (rp : ℕ → ℕ → List ℕ) (rs : ℕ → ℕ → List ℚ) (n_perm : ℕ) (h : 1 ≤ n_perm) :
    (∀ col ∈ (permutation_test fit ds obs_beta obs_tau2 rp rs n_perm).fe_p,
      ∀ q ∈ col,
        1 / ((permutation_test fit ds obs_beta obs_tau2 rp rs n_perm).n_perm : ℚ) ≤ q ∧
        q ≤ 1) ∧
    (∀ tp, (permutation_test fit ds obs_beta obs_tau2 rp rs n_perm).tau2_p = some tp →
      ∀ q ∈ tp,
        1 / ((permutation_test fit ds obs_beta obs_tau2 rp rs n_perm).n_perm : ℚ) ≤ q ∧
        q ≤ 1) := by
  have hn2 : 1 ≤ (permutation_test fit ds obs_beta obs_tau2 rp rs n_perm).n_perm := by
    by_cases hm : 1 < ds.n_predictors <;> simp [permutation_test, hm] <;> split
    · exact Nat.factorial_pos _
    · exact h
    · exact Nat.one_le_iff_ne_zero.mpr (pow_ne_zero _ (by norm_num))
    · exact h
  constructor
  · intro col hcol q hq
    simp only [permutation_test, List.mem_map] at hcol
    obtain ⟨i, _, rfl⟩ := hcol
    rw [List.mem_map] at hq
    obtain ⟨w, hw, rfl⟩ := hq
    obtain ⟨obs, row, rfl⟩ := exists_of_mem_zipWith hw
    exact floored_pvalue_bounds _ hn2 obs row
  · intro tp htp q hq
    simp only [permutation_test, Option.map_eq_some'] at htp
    obtain ⟨t, hts, rfl⟩ := htp
    rw [List.mem_map] at hq
    obtain ⟨i, _, rfl⟩ := hq
    exact floored_pvalue_bounds _ hn2 _ _

/-- C5 witness: a two-study intercept-only run with `n_perm = 3` yields the
p-value `1/3`, which sits inside the certified bounds. -/
theorem permutation_test_pvalue_bounds_witness :
    1 ≤ 3 ∧
    (1 / ((permutation_test fitSingle dsTwo [[5]] none rpNone rsNone 3).n_perm : ℚ) ≤ 1 / 3 ∧
     (1 / 3 : ℚ) ≤ 1) :=
  ⟨by norm_num,
   (permutation_test_pvalue_bounds fitSingle dsTwo [[5]] none rpNone rsNone 3
      (by norm_num)).1 [1 / 3]
     (by simp [permutation_test, build_perm_columns, fitSingle, dsTwo, rpNone, rsNone,
        pvalue_fraction, List.range_succ])
     (1 / 3) (by norm_num)⟩

/-- C6: `to_df` on results encoding exactly one parallel dataset returns one
row per predictor with exactly the 7 columns name, estimate, se, z-score,
p-value and the two CI bounds, in that order; with more than one parallel
dataset it fails with a descriptive error instead of returning a table. -/
theorem to_df_table_shape (sqrt cdf ppf : ℚ → ℚ) (fmtg : ℚ → String)
    (r : MetaRegressionResults) (alpha : ℚ) (hnames : r.X_names.length = r.p) :
    (1 < r.d → r.to_df sqrt cdf ppf fmtg alpha = .error "More than one set of results found! A summary table cannot be displayed for multidimensional results at the moment.") ∧
    (r.d = 1 → ∃ cols, r.to_df sqrt cdf ppf fmtg alpha = .ok cols ∧
      cols.map Prod.fst = ["name", "estimate", "se", "z-score", "p-value",
        "ci_" ++ fmtg (alpha / 2), "ci_" ++ fmtg (1 - alpha / 2)] ∧
      cols.length = 7 ∧
      ∀ c ∈ cols, colLength c.2 = r.p) := by
  constructor
  · intro hd
    simp [MetaRegressionResults.to_df, hd]
  · intro hd
    simp only [MetaRegressionResults.to_df]
    rw [if_neg (by omega)]
    refine ⟨_, rfl, by simp, by simp, ?_⟩
    intro c hc
    simp only [List.mem_cons, List.not_mem_nil, or_false] at hc
    rcases hc with rfl | rfl | rfl | rfl | rfl | rfl | rfl <;>
      simp [colLength, hnames]

/-- C6 witness: the table shape evaluated on a container with two predictors
and one parallel dataset. -/
theorem to_df_table_shape_witness :
    rTwoPred.X_names.length = rTwoPred.p ∧
    ((1 < rTwoPred.d → rTwoPred.to_df id cdfHalf id fmtgQ (1 / 20) = .error "More than one set of results found! A summary table cannot be displayed for multidimensional results at the moment.") ∧
     (rTwoPred.d = 1 → ∃ cols, rTwoPred.to_df id cdfHalf id fmtgQ (1 / 20) = .ok cols ∧
       cols.map Prod.fst = ["name", "estimate", "se", "z-score", "p-value",
         "ci_" ++ fmtgQ (1 / 20 / 2), "ci_" ++ fmtgQ (1 - 1 / 20 / 2)] ∧
       cols.length = 7 ∧
       ∀ c ∈ cols, colLength c.2 = rTwoPred.p)) :=
  ⟨rfl, to_df_table_shape id cdfHalf id fmtgQ rTwoPred (1 / 20) rfl⟩

/-- C9: `PermutationTestResults.to_df` returns the base table of the
underlying `MetaRegressionResults` with exactly one extra column, named
`p-value (perm.)` and holding the stored fixed-effect permutation p-values,
inserted immediately after the `p-value` column (which sits at index 4);
removing the inserted column restores the base table, so all other columns
and their order are unchanged. -/
theorem permutation_to_df_inserts (sqrt cdf ppf : ℚ → ℚ) (fmtg : ℚ → String)
    (ptr : PermutationTestResults) (r : MetaRegressionResults) (alpha : ℚ)
    (hd : r.d = 1) :
    ∃ base, r.to_df sqrt cdf ppf fmtg alpha = .ok base ∧
      PermutationTestResults.to_df sqrt cdf ppf fmtg ptr r alpha =
        .ok (base.insertIdx 5 ("p-value (perm.)", .nums ptr.fe_p.flatten)) ∧
      base.findIdx (fun c => decide (c.1 = "p-value")) = 4 ∧
      (base.insertIdx 5 ("p-value (perm.)", .nums ptr.fe_p.flatten)).map Prod.fst =
        ["name", "estimate", "se", "z-score", "p-value", "p-value (perm.)",
         "ci_" ++ fmtg (alpha / 2), "ci_" ++ fmtg (1 - alpha / 2)] ∧
      (base.insertIdx 5 ("p-value (perm.)", .nums ptr.fe_p.flatten)).eraseIdx 5 = base := by
  have hbase : r.to_df sqrt cdf ppf fmtg alpha = .ok
      [("name", .strs r.X_names),
       ("estimate", .nums ((List.range r.p).map (fun j => (r.get_fe_stats sqrt cdf ppf alpha).est j 0))),
       ("se", .nums ((List.range r.p).map (fun j => (r.get_fe_stats sqrt cdf ppf alpha).se j 0))),
       ("z-score", .nums ((List.range r.p).map (fun j => (r.get_fe_stats sqrt cdf ppf alpha).z j 0))),
       ("p-value", .nums ((List.range r.p).map (fun j => (r.get_fe_stats sqrt cdf ppf alpha).p j 0))),
       ("ci_" ++ fmtg (alpha / 2), .nums ((List.range r.p).map (fun j => (r.get_fe_stats sqrt cdf ppf alpha).ci_l j 0))),
       ("ci_" ++ fmtg (1 - alpha / 2), .nums ((List.range r.p).map (fun j => (r.get_fe_stats sqrt cdf ppf alpha).ci_u j 0)))] := by
    simp only [MetaRegressionResults.to_df]
    rw [if_neg (by omega)]
  have hfind : (List.findIdx (fun c => decide (c.1 = "p-value"))
      [(("name" : String), ColData.strs r.X_names),
       ("estimate", .nums ((List.range r.p).map (fun j => (r.get_fe_stats sqrt cdf ppf alpha).est j 0))),
       ("se", .nums ((List.range r.p).map (fun j => (r.get_fe_stats sqrt cdf ppf alpha).se j 0))),
       ("z-score", .nums ((List.range r.p).map (fun j => (r.get_fe_stats sqrt cdf ppf alpha).z j 0))),
       ("p-value", .nums ((List.range r.p).map (fun j => (r.get_fe_stats sqrt cdf ppf alpha).p j 0))),
       ("ci_" ++ fmtg (alpha / 2), .nums ((List.range r.p).map (fun j => (r.get_fe_stats sqrt cdf ppf alpha).ci_l j 0))),
       ("ci_" ++ fmtg (1 - alpha / 2), .nums ((List.range r.p).map (fun j => (r.get_fe_stats sqrt cdf ppf alpha).ci_u j 0)))]) = 4 := by
    simp [List.findIdx_cons]
  refine ⟨_, hbase, ?_, hfind, ?_, ?_⟩
  · simp only [PermutationTestResults.to_df, hbase, hfind]
  · simp [List.insertIdx_succ_cons]
  · simp [List.eraseIdx_insertIdx]

/-- C9 witness: the inserted-column layout evaluated on a concrete
two-predictor base table and a stored pair of permutation p-values. -/
theorem permutation_to_df_inserts_witness :
    rTwoPred.d = 1 ∧
    (∃ base, rTwoPred.to_df id cdfHalf id fmtgQ (1 / 20) = .ok base ∧
      PermutationTestResults.to_df id cdfHalf id fmtgQ ptrTwo rTwoPred (1 / 20) =
        .ok (base.insertIdx 5 ("p-value (perm.)", .nums ptrTwo.fe_p.flatten)) ∧
      base.findIdx (fun c => decide (c.1 = "p-value")) = 4 ∧
      (base.insertIdx 5 ("p-value (perm.)", .nums ptrTwo.fe_p.flatten)).map Prod.fst =
        ["name", "estimate", "se", "z-score", "p-value", "p-value (perm.)",
         "ci_" ++ fmtgQ (1 / 20 / 2), "ci_" ++ fmtgQ (1 - 1 / 20 / 2)] ∧
      (base.insertIdx 5 ("p-value (perm.)", .nums ptrTwo.fe_p.flatten)).eraseIdx 5 = base) :=
  ⟨rfl, permutation_to_df_inserts id cdfHalf id fmtgQ ptrTwo rTwoPred (1 / 20) rfl⟩
